import Mathlib

/-!
Verification of the tauri-static-deployer publishing pipeline, shallowly
embedded from src/main.rs: the platform model, the namespacing (storage key
derivation), the upload orchestration of the Upload command, and the publish
validation step.
-/

namespace TauriStaticDeployer

/-- The RustTarget enum of src/main.rs (the internal build-target identifier). -/
inductive RustTarget
  | Win32
  | Win64
  | Linux64
deriving DecidableEq, Repr

/-- The serde rename of each RustTarget variant, as serde_variant
reads it: Win32 is renamed to i686-pc-windows-msvc, Win64 to
x86_64-pc-windows-msvc, Linux64 to x86_64-unknown-linux-gnu. -/
def to_variant_name : RustTarget → String
  | .Win32 => "i686-pc-windows-msvc"
  | .Win64 => "x86_64-pc-windows-msvc"
  | .Linux64 => "x86_64-unknown-linux-gnu"

/-- The variants of RustTarget in declaration order, as enum_iterator
IntoEnumIterator yields them. -/
def all_targets : List RustTarget := [.Win32, .Win64, .Linux64]

/-- Error of the matched_variant macro: the input matched no variant. -/
inductive ParseError
  | NoVariantMatched (input : String)
deriving DecidableEq, Repr

/-- FromStr for RustTarget via the matched_variant macro: iterate over all
variants and find the one whose serde variant name equals the input. -/
def RustTarget.from_str (s : String) : Except ParseError RustTarget :=
  match all_targets.find? (fun v => to_variant_name v == s) with
  | some v => .ok v
  | none => .error (.NoVariantMatched s)

/-- ReleasePlatformV1 of the release_notes_file module (legacy short names). -/
inductive ReleasePlatformV1
  | Win64
  | Win32
  | Linux
deriving DecidableEq, Repr

/-- ReleasePlatformV2 of the release_notes_file module (canonical os-arch names). -/
inductive ReleasePlatformV2
  | Win64
  | Win32
  | Linux
deriving DecidableEq, Repr

/-- The untagged union ReleasePlatform of the release_notes_file module. -/
inductive ReleasePlatform
  | V1 (p : ReleasePlatformV1)
  | V2 (p : ReleasePlatformV2)
deriving DecidableEq, Repr

/-- RustTarget::to_release_platform: each target maps to the V1 and the V2
identifier of its platform, in that order, always returning Ok. -/
def to_release_platform : RustTarget → Except String (List ReleasePlatform)
  | .Win32 => .ok [.V1 .Win32, .V2 .Win32]
  | .Win64 => .ok [.V1 .Win64, .V2 .Win64]
  | .Linux64 => .ok [.V1 .Linux, .V2 .Linux]

/-- Outcome of running code that may panic: Rust unimplemented! aborts the
thread instead of returning a value. -/
inductive PanicOr (α : Type)
  | panics (msg : String)
  | returns (a : α)
deriving DecidableEq, Repr

/-- ReleasePlatform::to_installer_str: Win64 gives x64, Win32 gives x86, and
the Linux arm of both generations runs unimplemented! (a panic). -/
def to_installer_str : ReleasePlatform → PanicOr String
  | .V1 .Win64 => .returns "x64"
  | .V1 .Win32 => .returns "x86"
  | .V1 .Linux => .panics "linux platform is not supported at the moment"
  | .V2 .Win64 => .returns "x64"
  | .V2 .Win32 => .returns "x86"
  | .V2 .Linux => .panics "linux platform is not supported at the moment"

/-- Whether a ReleasePlatform belongs to the V1 generation. -/
def is_v1 : ReleasePlatform → Bool
  | .V1 _ => true
  | .V2 _ => false

/-- Whether a ReleasePlatform belongs to the V2 generation. -/
def is_v2 : ReleasePlatform → Bool
  | .V1 _ => false
  | .V2 _ => true

/-! ## Namespacing (src/main.rs, mod namespacing) -/

/-- namespacing::derive_release_base_key: the literal format string
branch_name, a slash, then the serde variant name of the target. -/
def derive_release_base_key (branch_name : String) (target : RustTarget) : String :=
  branch_name ++ "/" ++ to_variant_name target

/-- namespacing::derive_release_file_s3_key: the base key followed by the
fixed manifest filename. -/
def derive_release_file_s3_key (branch_name : String) (target : RustTarget) : String :=
  derive_release_base_key branch_name target ++ "/release-notes.json"

/-- The branch sanitization performed in the Patch command when building the
new bundle identifier: branch.replace of the slash, the space and the colon,
each by an underscore. Sequential single-character replaces with a character
none of them rewrites equal one character-wise map. -/
def sanitize_branch (branch : String) : String :=
  ⟨branch.data.map (fun c => if c = '/' ∨ c = ' ' ∨ c = ':' then '_' else c)⟩

/-- The package section of tauri.conf.json (product name and version). -/
structure Package where
  product_name : String
  version : String
deriving DecidableEq, Repr

/-- The updater section of tauri.conf.json: the endpoint list. -/
structure Updater where
  endpoints : List String
deriving DecidableEq, Repr

/-- The bundle section of tauri.conf.json: the bundle identifier. -/
structure Bundle where
  identifier : String
deriving DecidableEq, Repr

/-- The tauri section of tauri.conf.json. -/
structure Tauri where
  updater : Updater
  bundle : Bundle
deriving DecidableEq, Repr

/-- TauriConfJson: the fields the pipeline reads. -/
structure TauriConfJson where
  package : Package
  tauri : Tauri
deriving DecidableEq, Repr

/-- One component of a filesystem path, as Rust Path::components yields them
after its normalization. -/
inductive PathComponent
  | rootDir
  | curDir
  | parentDir
  | normal (s : String)
deriving DecidableEq, Repr

/-- A filesystem path, modelled by its normalized component list. -/
structure FsPath where
  components : List PathComponent
deriving DecidableEq, Repr

/-- Rust Path::file_name: the last component when it is a normal component,
otherwise none. -/
def FsPath.file_name (p : FsPath) : Option String :=
  match p.components.getLast? with
  | some (.normal s) => some s
  | _ => none

/-- namespacing::derive_binary_file_s3_key: fails when the path has no
filename component, otherwise base key, version, commit hash and filename
joined by slashes. -/
def derive_binary_file_s3_key (tauri_conf_json : TauriConfJson) (target : RustTarget)
    (branch_name : String) (binary_file_path : FsPath) (git_commit_hash : String) :
    Except String String :=
  match binary_file_path.file_name with
  | none => .error "this is a directory"
  | some filename =>
      .ok (derive_release_base_key branch_name target ++ "/" ++
           tauri_conf_json.package.version ++ "/" ++ git_commit_hash ++ "/" ++ filename)

/-! ## Upload orchestration (src/main.rs, Command::Upload arm of main) -/

/-- Rust str::ends_with, phrased on the character lists of the strings. -/
def ends_with (s suffix : String) : Bool :=
  suffix.data.isSuffixOf s.data

/-- The error value of the publish validation at the end of the Upload arm:
the bail! message carries the release file url and the endpoint list. -/
inductive ValidationError
  | EndpointMismatch (release_file_url : String) (endpoints : List String)
deriving DecidableEq, Repr

/-- The validation step of the Upload arm: succeed when some registered
endpoint equals the release file url, otherwise bail with both values. -/
def validate_release_file_url (release_file_url : String) (endpoints : List String) :
    Except ValidationError Unit :=
  if endpoints.any (fun url => url == release_file_url) then .ok ()
  else .error (.EndpointMismatch release_file_url endpoints)

/-- futures::future::try_join_all over the upload tasks: all results
collected when every task succeeds, otherwise the run fails with an error
of a failed task. -/
def try_join_all (put : String → Except String String) : List String → Except String (List String)
  | [] => .ok []
  | k :: ks =>
      match put k with
      | .error e => .error e
      | .ok url =>
          match try_join_all put ks with
          | .error e => .error e
          | .ok urls => .ok (url :: urls)

/-- The collect over derive_binary_file_s3_key in the Upload arm: every file
resolved to its storage key, failing on the first key derivation error. -/
def derive_all_keys (tauri_conf_json : TauriConfJson) (target : RustTarget)
    (branch_name : String) (git_commit_hash : String) :
    List FsPath → Except String (List String)
  | [] => .ok []
  | f :: fs =>
      match derive_binary_file_s3_key tauri_conf_json target branch_name f git_commit_hash with
      | .error e => .error e
      | .ok k =>
          match derive_all_keys tauri_conf_json target branch_name git_commit_hash fs with
          | .error e => .error e
          | .ok ks => .ok (k :: ks)

/-- The url classification of the Upload arm: the first uploaded url ending
in .zip is the binary url (its absence is fatal), and the signature is the
fetched content of the first url ending in .zip.sig when one exists,
otherwise the empty string with only a logged warning. The network fetch is
the collaborator parameter. -/
def classify_urls (fetch : String → String) (urls : List String) :
    Except String (String × String) :=
  match urls.find? (fun u => ends_with u ".zip") with
  | none => .error "getting zip file"
  | some binary_url =>
      let signature :=
        match urls.find? (fun u => ends_with u ".zip.sig") with
        | some signature_url => fetch signature_url
        | none => ""
      .ok (binary_url, signature)

/-- The RemoteRelease struct of the release_notes_file module. -/
structure RemoteRelease where
  url : String
  signature : String
deriving DecidableEq, Repr

/-- The platforms map of the ReleaseNotes built in the Upload arm: every
release platform of the target paired with the one binary url and the one
signature. The HashMap of the source is modelled as the association list the
collect runs over; its keys are the distinct platform values. -/
def build_platforms (release_platforms : List ReleasePlatform)
    (binary_url signature : String) : List (ReleasePlatform × RemoteRelease) :=
  release_platforms.map (fun release_platform =>
    (release_platform, { url := binary_url, signature := signature }))

/-- The trace of one run of the Upload arm: its final result (the release
file url on success) and whether the release file upload was attempted. -/
structure PublishTrace where
  result : Except String String
  release_file_upload_attempted : Bool
deriving Repr

/-- The control flow of the Upload arm of main, with the store and the
signature fetch as collaborator parameters: derive all binary keys, upload
them all through try_join_all, classify the returned urls, then upload the
release file and validate its url against the configured endpoints. -/
def publish_run (put : String → Except String String) (fetch : String → String)
    (release_file_put : Except String String) (tauri_conf_json : TauriConfJson)
    (target : RustTarget) (branch_name git_commit_hash : String)
    (files : List FsPath) : PublishTrace :=
  match derive_all_keys tauri_conf_json target branch_name git_commit_hash files with
  | .error e => { result := .error e, release_file_upload_attempted := false }
  | .ok keys =>
      match try_join_all put keys with
      | .error e => { result := .error e, release_file_upload_attempted := false }
      | .ok urls =>
          match classify_urls fetch urls with
          | .error e => { result := .error e, release_file_upload_attempted := false }
          | .ok _ =>
              match release_file_put with
              | .error e => { result := .error e, release_file_upload_attempted := true }
              | .ok release_file_url =>
                  match validate_release_file_url release_file_url
                      tauri_conf_json.tauri.updater.endpoints with
                  | .error _ =>
                      { result := .error "configuration error - release file url not registered",
                        release_file_upload_attempted := true }
                  | .ok _ =>
                      { result := .ok release_file_url,
                        release_file_upload_attempted := true }

/-! ## Shared helper lemmas -/

/-- When some key of the list fails to upload, try_join_all does not succeed. -/
theorem try_join_all_not_ok (put : String → Except String String) :
    ∀ keys : List String, (∃ k ∈ keys, (put k).isOk = false) →
      (try_join_all put keys).isOk = false := by
  intro keys
  induction keys with
  | nil => rintro ⟨k, hk, _⟩; exact absurd hk (List.not_mem_nil k)
  | cons k ks ih =>
      rintro ⟨k0, hk0, hfail⟩
      rcases List.mem_cons.mp hk0 with rfl | hk0
      · unfold try_join_all
        cases hput : put k0 with
        | error e => rfl
        | ok url =>
            rw [hput] at hfail
            exact Bool.noConfusion hfail
      · unfold try_join_all
        cases hput : put k with
        | error e => rfl
        | ok url =>
            have hrec := ih ⟨k0, hk0, hfail⟩
            cases hjoin : try_join_all put ks with
            | error e => rfl
            | ok urls =>
                rw [hjoin] at hrec
                exact Bool.noConfusion hrec

/-- When try_join_all succeeds, every single upload of the list succeeded. -/
theorem try_join_all_ok_all (put : String → Except String String) :
    ∀ (keys : List String) (urls : List String), try_join_all put keys = .ok urls →
      ∀ k ∈ keys, (put k).isOk = true := by
  intro keys
  induction keys with
  | nil => intro urls _ k hk; exact absurd hk (List.not_mem_nil k)
  | cons k ks ih =>
      intro urls hjoin k0 hk0
      unfold try_join_all at hjoin
      cases hput : put k with
      | error e => rw [hput] at hjoin; exact absurd hjoin (by simp)
      | ok url =>
          rw [hput] at hjoin
          cases hrec : try_join_all put ks with
          | error e => rw [hrec] at hjoin; exact absurd hjoin (by simp)
          | ok urls2 =>
              rcases List.mem_cons.mp hk0 with rfl | hk0
              · rw [hput]; rfl
              · exact ih urls2 hrec k0 hk0

/-- Shape of the platforms map built in the Upload arm: the keys are exactly
the given release platforms and every value holds the given url and signature. -/
theorem build_platforms_shape (ps : List ReleasePlatform) (u s : String) :
    ((build_platforms ps u s).map Prod.fst = ps) ∧
    ∀ e ∈ build_platforms ps u s, e.2.url = u ∧ e.2.signature = s := by
  constructor
  · simp [build_platforms, Function.comp_def]
  · intro e he
    simp only [build_platforms, List.mem_map] at he
    obtain ⟨rp, _, rfl⟩ := he
    exact ⟨rfl, rfl⟩

/-! ## Claims -/

/-- C1, counterexample: the claim says the base key produced by
derive_release_base_key contains no space for any branch name, but for the
branch "a b" the derived base key still contains the space: the branch is
not sanitized before it is embedded. -/
theorem base_key_space_counterexample :
    ' ' ∈ (derive_release_base_key "a b" RustTarget.Win32).data := by decide

/-- C1, amended: derive_release_base_key embeds the branch name verbatim
(no replacement of the slash, the space or the colon happens there); the
replacement of those three characters by an underscore is applied to the
branch only in the Patch command when the new bundle identifier is built,
and that sanitization does remove all three characters. -/
theorem base_key_embeds_branch_verbatim :
    (∀ branch_name target, derive_release_base_key branch_name target =
        branch_name ++ "/" ++ to_variant_name target) ∧
    (∀ branch, '/' ∉ (sanitize_branch branch).data ∧ ' ' ∉ (sanitize_branch branch).data ∧
        ':' ∉ (sanitize_branch branch).data) := by
  constructor
  · intro b t; rfl
  · intro b
    have h : ∀ c0 : Char, (c0 = '/' ∨ c0 = ' ' ∨ c0 = ':') → c0 ∉ (sanitize_branch b).data := by
      intro c0 hc0 hmem
      simp only [sanitize_branch, List.mem_map] at hmem
      obtain ⟨c, _, hE⟩ := hmem
      by_cases hcond : c = '/' ∨ c = ' ' ∨ c = ':'
      · rw [if_pos hcond] at hE
        rcases hc0 with h0 | h0 | h0 <;> rw [← hE] at h0 <;> exact absurd h0 (by decide)
      · rw [if_neg hcond] at hE
        exact hcond (hE ▸ hc0)
    exact ⟨h _ (Or.inl rfl), h _ (Or.inr (Or.inl rfl)), h _ (Or.inr (Or.inr rfl))⟩

/-- C2: the validation step succeeds exactly when the release file url is
present verbatim in the registered endpoint list, and on failure the error
carries the url and the whole endpoint list verbatim. -/
theorem validate_release_file_url_iff_registered :
    ∀ (release_file_url : String) (endpoints : List String),
      validate_release_file_url release_file_url endpoints =
        if release_file_url ∈ endpoints then .ok ()
        else .error (.EndpointMismatch release_file_url endpoints) := by
  intro u es
  by_cases h : u ∈ es
  · have hany : es.any (fun url => url == u) = true := by
      simp only [List.any_eq_true, beq_iff_eq]
      exact ⟨u, h, rfl⟩
    simp [validate_release_file_url, hany, h]
  · have hany : es.any (fun url => url == u) = false := by
      simp only [List.any_eq_false, beq_iff_eq]
      intro x hx hxu
      exact h (hxu ▸ hx)
    simp [validate_release_file_url, hany, h]

/-- C3: when any one of the binary uploads fails, the Upload run fails and
the release file upload is never attempted; and whenever the release file
upload is attempted, every one of the binary uploads has succeeded. -/
theorem publish_no_release_file_upload_on_binary_failure :
    ∀ (put : String → Except String String) (fetch : String → String)
      (release_file_put : Except String String) (conf : TauriConfJson)
      (target : RustTarget) (branch_name git_commit_hash : String)
      (files : List FsPath) (keys : List String),
      derive_all_keys conf target branch_name git_commit_hash files = .ok keys →
      (((∃ k ∈ keys, (put k).isOk = false) →
          (publish_run put fetch release_file_put conf target branch_name git_commit_hash
            files).result.isOk = false ∧
          (publish_run put fetch release_file_put conf target branch_name git_commit_hash
            files).release_file_upload_attempted = false) ∧
       ((publish_run put fetch release_file_put conf target branch_name git_commit_hash
            files).release_file_upload_attempted = true →
          ∀ k ∈ keys, (put k).isOk = true)) := by
  intro put fetch mput conf t b hash files keys hkeys
  constructor
  · intro hfail
    have hjoin : (try_join_all put keys).isOk = false := try_join_all_not_ok put keys hfail
    cases hj : try_join_all put keys with
    | error e =>
        simp [publish_run, hkeys, hj, Except.isOk, Except.toBool]
    | ok urls => rw [hj] at hjoin; exact Bool.noConfusion hjoin
  · intro hatt
    cases hj : try_join_all put keys with
    | error e =>
        simp [publish_run, hkeys, hj] at hatt
    | ok urls => exact try_join_all_ok_all put keys urls hj

/-- Concrete configuration for the C3 witness run. -/
def w_conf : TauriConfJson := ⟨⟨"app", "1.0.0"⟩, ⟨⟨["https://cdn/m"]⟩, ⟨"com.example"⟩⟩⟩

/-- Concrete release file list for the C3 witness run. -/
def w_files : List FsPath := [⟨[.normal "app.zip"]⟩]

/-- Store collaborator for the C3 witness run: every upload fails. -/
def w_put : String → Except String String := fun _ => .error "network error"

/-- Signature fetch collaborator for the C3 witness run. -/
def w_fetch : String → String := fun _ => "SIGDATA"

/-- The one storage key the C3 witness run derives. -/
def w_key : String := "release/x86_64-pc-windows-msvc/1.0.0/deadbeef/app.zip"

/-- C3, witness: on a concrete run whose single binary upload fails, the run
fails and the release file upload is not attempted. -/
theorem publish_no_release_file_upload_on_binary_failure_witness :
    (publish_run w_put w_fetch (.ok "https://cdn/m") w_conf RustTarget.Win64 "release"
      "deadbeef" w_files).result.isOk = false ∧
    (publish_run w_put w_fetch (.ok "https://cdn/m") w_conf RustTarget.Win64 "release"
      "deadbeef" w_files).release_file_upload_attempted = false :=
  (publish_no_release_file_upload_on_binary_failure w_put w_fetch (.ok "https://cdn/m") w_conf
      RustTarget.Win64 "release" "deadbeef" w_files [w_key] rfl).1 ⟨w_key, by simp, rfl⟩

/-- C4: to_release_platform is total (always Ok), returns a non-empty list
with exactly one V1 entry and one V2 entry and no duplicates, and is
injective across targets: a platform value appearing for two targets forces
the targets to be equal (so no two distinct targets collide in either
generation). -/
theorem to_release_platform_total_one_per_generation :
    (∀ target : RustTarget, ∃ ps : List ReleasePlatform,
        to_release_platform target = .ok ps ∧ ps ≠ [] ∧
        (ps.filter is_v1).length = 1 ∧ (ps.filter is_v2).length = 1 ∧ ps.Nodup) ∧
    (∀ t1 t2 : RustTarget, ∀ ps1 ps2 : List ReleasePlatform,
        to_release_platform t1 = .ok ps1 → to_release_platform t2 = .ok ps2 →
        ∀ p, p ∈ ps1 → p ∈ ps2 → t1 = t2) := by
  constructor
  · intro t
    cases t <;> exact ⟨_, rfl, by decide, by decide, by decide, by decide⟩
  · intro t1 t2 ps1 ps2 h1 h2 p hp1 hp2
    cases t1 <;> cases t2 <;> try rfl
    all_goals
      injection h1 with h1
      injection h2 with h2
      subst h1
      subst h2
      revert hp1 hp2
      revert p
      decide

/-- C5, counterexample: the claim says the platform model returns an
explicit UnsupportedPlatform error value for Linux, but to_installer_str
runs unimplemented! there: the Linux arm panics instead of returning an
error value. -/
theorem to_installer_str_linux_panics_counterexample :
    to_installer_str (.V1 .Linux) =
      .panics "linux platform is not supported at the moment" := rfl

/-- C5, amended: to_installer_str panics (via unimplemented!) exactly on the
Linux platform of either generation, and returns the installer string
without panicking for every platform with an installer mapping: x64 for
Win64 and x86 for Win32. -/
theorem to_installer_str_spec :
    ∀ p : ReleasePlatform,
      (to_installer_str p = .panics "linux platform is not supported at the moment" ↔
        (p = .V1 .Linux ∨ p = .V2 .Linux)) ∧
      ((p = .V1 .Win64 ∨ p = .V2 .Win64) → to_installer_str p = .returns "x64") ∧
      ((p = .V1 .Win32 ∨ p = .V2 .Win32) → to_installer_str p = .returns "x86") := by
  rintro (pv | pv) <;> cases pv <;> refine ⟨?_, ?_, ?_⟩ <;> decide

/-- C6: the release file storage key is the base key followed by the fixed
filename release-notes.json, and for the branch "release" and the 64-bit
Linux target it is exactly release/x86_64-unknown-linux-gnu/release-notes.json. -/
theorem derive_release_file_s3_key_spec :
    (∀ branch_name target, derive_release_file_s3_key branch_name target =
        derive_release_base_key branch_name target ++ "/release-notes.json") ∧
    derive_release_file_s3_key "release" RustTarget.Linux64 =
      "release/x86_64-unknown-linux-gnu/release-notes.json" :=
  ⟨fun _ _ => rfl, rfl⟩

/-- C7: for a path with a filename component the binary storage key is the
base key, the configured package version, the commit hash and the filename
joined by slashes; for a path with no filename component the derivation
returns the nameless-file error instead of a key. -/
theorem derive_binary_file_s3_key_spec :
    ∀ (conf : TauriConfJson) (target : RustTarget) (branch_name : String)
      (p : FsPath) (git_commit_hash : String),
      (∀ filename, p.file_name = some filename →
          derive_binary_file_s3_key conf target branch_name p git_commit_hash =
            .ok (derive_release_base_key branch_name target ++ "/" ++
                 conf.package.version ++ "/" ++ git_commit_hash ++ "/" ++ filename)) ∧
      (p.file_name = none →
          derive_binary_file_s3_key conf target branch_name p git_commit_hash =
            .error "this is a directory") := by
  intro conf t b p hash
  constructor
  · intro fn hfn
    simp [derive_binary_file_s3_key, hfn]
  · intro hfn
    simp [derive_binary_file_s3_key, hfn]

/-- C8: classification of the uploaded urls: when no url ends in .zip the
run fails; when a binary url is found and no url ends in .zip.sig the run
does not fail and the signature is the empty string; when a signature url
is found the signature is its fetched content. -/
theorem classify_urls_signature_optional_zip_required :
    ∀ (fetch : String → String) (urls : List String),
      ((∀ u ∈ urls, ends_with u ".zip" = false) →
          classify_urls fetch urls = .error "getting zip file") ∧
      (∀ binary_url, urls.find? (fun u => ends_with u ".zip") = some binary_url →
          (((∀ u ∈ urls, ends_with u ".zip.sig" = false) →
              classify_urls fetch urls = .ok (binary_url, "")) ∧
           (∀ signature_url,
              urls.find? (fun u => ends_with u ".zip.sig") = some signature_url →
              classify_urls fetch urls = .ok (binary_url, fetch signature_url)))) := by
  intro fetch urls
  constructor
  · intro hz
    have hnone : urls.find? (fun u => ends_with u ".zip") = none := by
      rw [List.find?_eq_none]
      intro u hu
      simp [hz u hu]
    simp [classify_urls, hnone]
  · intro b hb
    constructor
    · intro hs
      have hnone : urls.find? (fun u => ends_with u ".zip.sig") = none := by
        rw [List.find?_eq_none]
        intro u hu
        simp [hs u hu]
      simp [classify_urls, hb, hnone]
    · intro s hs
      simp [classify_urls, hb, hs]

/-- C9: the platforms map of one run has exactly one entry per release
platform of the target (with no duplicate keys), and every entry carries
the one binary url and the one signature of the run. -/
theorem release_notes_platforms_uniform :
    ∀ (target : RustTarget) (binary_url signature : String),
      ∃ ps : List ReleasePlatform,
        to_release_platform target = .ok ps ∧ ps.Nodup ∧
        (build_platforms ps binary_url signature).map Prod.fst = ps ∧
        ∀ e ∈ build_platforms ps binary_url signature,
          e.2.url = binary_url ∧ e.2.signature = signature := by
  intro t u s
  cases t <;>
    exact ⟨_, rfl, by decide, (build_platforms_shape _ u s).1, (build_platforms_shape _ u s).2⟩

/-- C10: parsing the serde variant name of any RustTarget returns exactly
that target, and parsing a string that is the name of no variant returns
the no-variant-matched error. -/
theorem rust_target_from_str_left_inverse :
    (∀ t : RustTarget, RustTarget.from_str (to_variant_name t) = .ok t) ∧
    (∀ s : String, (∀ t : RustTarget, to_variant_name t ≠ s) →
        RustTarget.from_str s = .error (.NoVariantMatched s)) := by
  constructor
  · intro t; cases t <;> rfl
  · intro s hs
    unfold RustTarget.from_str
    have hnone : all_targets.find? (fun v => to_variant_name v == s) = none := by
      rw [List.find?_eq_none]
      intro v _
      simp [hs v]
    rw [hnone]

end TauriStaticDeployer
